import Mathlib

/-
Verification of the Emulearner sandboxed step-synchronized execution engine.

The definitions below are shallow embeddings of the TypeScript/JavaScript
source: src/core/GameController.ts (MemoryReader), src/core/EmulatorBridge.ts
(discoverWorkRamBase), the inline Web Worker of src/sandbox/CodeSandbox.ts,
and the ChallengeEngine of src/challenges. Machine arithmetic follows the
JavaScript semantics of the 32-bit bitwise operators where the source uses
them. Fallible code is modelled with Except.
-/

set_option maxHeartbeats 1000000

/- ===================== JavaScript 32-bit integer semantics ===================== -/

/-- JavaScript ToUint32: value in the range 0 ≤ n < 2^32. -/
def toUint32 (n : Int) : Int := n % 4294967296

/-- JavaScript ToInt32: value in the range -2^31 ≤ n < 2^31. -/
def toInt32 (n : Int) : Int :=
  let u := n % 4294967296
  if u < 2147483648 then u else u - 4294967296

/-- JavaScript left shift a << k: operands to int32, shift count mod 32, int32 result. -/
def jsShl (a k : Int) : Int :=
  toInt32 (toInt32 a * 2 ^ ((toUint32 k).toNat % 32))

/-- JavaScript bitwise or on 32-bit operands. -/
def jsOr (a b : Int) : Int :=
  toInt32 (Int.ofNat (Nat.lor (toUint32 a).toNat (toUint32 b).toNat))

/-- JavaScript bitwise and on 32-bit operands. -/
def jsAnd (a b : Int) : Int :=
  toInt32 (Int.ofNat (Nat.land (toUint32 a).toNat (toUint32 b).toNat))

/- ===================== MemoryReader: typed memory decoding ===================== -/

/-- Endianness of a memory type spec, from src/data/parser.ts. -/
inductive Endian
  | big
  | little
  | native
  deriving DecidableEq, Repr

/-- Parsed Stable Retro type spec, from src/data/types.ts. -/
structure ParsedMemoryType where
  endian : Endian
  signed : Bool
  bytes : Nat
  deriving DecidableEq, Repr

namespace MemoryReader

/--
Model of MemoryReader.readMemoryTyped (src/core/GameController.ts MemoryReader
part). The loop `value = (value << 8) | rawBytes[i]` runs under JavaScript
32-bit bitwise semantics, as does `1 << (type.bytes * 8)`; both are modelled
with jsShl/jsOr/jsAnd. A missing byte reads as 0 (the bridge always supplies
exactly `bytes` bytes).
-/
def readMemoryTyped (rawBytes : List Nat) (type : ParsedMemoryType) : Int :=
  if type.bytes = 1 then
    let value : Int := (rawBytes.getD 0 0 : Nat)
    if type.signed && decide (128 ≤ value) then value - 256 else value
  else
    let idxs : List Nat :=
      match type.endian with
      | Endian.little => (List.range type.bytes).reverse
      | _ => List.range type.bytes
    let value : Int := idxs.foldl (fun v i => jsOr (jsShl v 8) ((rawBytes.getD i 0 : Nat) : Int)) 0
    if type.signed then
      let signBit := jsShl 1 ((type.bytes : Int) * 8 - 1)
      if jsAnd value signBit ≠ 0 then value - jsShl 1 ((type.bytes : Int) * 8) else value
    else
      value

end MemoryReader

/--
Reference decoding of a W-byte value, stated from the specification: big
endian assembles with the first byte most significant, little endian with the
last byte most significant, and a signed value with its sign bit set has
2^(8W) subtracted (exact two's-complement sign extension).
-/
def referenceDecode (rawBytes : List Nat) (endian : Endian) (signed : Bool) (w : Nat) : Int :=
  let ordered :=
    match endian with
    | Endian.little => rawBytes.reverse
    | _ => rawBytes
  let u : Nat := ordered.foldl (fun acc b => acc * 256 + b) 0
  if signed && decide (2 ^ (8 * w - 1) ≤ u) then (u : Int) - 2 ^ (8 * w) else u

/-- Model of JavaScript parseInt(s, 10) on a digit prefix; none models NaN. -/
def parseIntDigits (s : List Char) : Option Nat :=
  let digits := s.takeWhile (fun c => c.isDigit)
  if digits.isEmpty then none
  else some (digits.foldl (fun acc c => acc * 10 + (c.toNat - 48)) 0)

/-- Model of parseTypeSpec (src/data/parser.ts). -/
def parseTypeSpec (typeSpec : String) : Except String ParsedMemoryType :=
  if typeSpec.length < 3 then
    Except.error ("Invalid type spec: " ++ typeSpec)
  else
    match typeSpec.data with
    | endianChar :: signedChar :: rest =>
      match (match endianChar with
             | '>' => some Endian.big
             | '<' => some Endian.little
             | '|' => some Endian.native
             | _ => none) with
      | none => Except.error ("Invalid endian character: " ++ String.mk [endianChar])
      | some endian =>
        match (match signedChar with
               | 'u' => some false
               | 'i' => some true
               | _ => none) with
        | none => Except.error ("Invalid signed character: " ++ String.mk [signedChar])
        | some signed =>
          match parseIntDigits rest with
          | none => Except.error ("Invalid byte count: " ++ String.mk rest)
          | some bytes =>
            if bytes < 1 || bytes > 8 then
              Except.error ("Invalid byte count: " ++ String.mk rest)
            else
              Except.ok { endian := endian, signed := signed, bytes := bytes }
    | _ => Except.error ("Invalid type spec: " ++ typeSpec)

/-- A data.json variable mapping (src/data/types.ts). -/
structure VariableMapping where
  address : Int
  type : String
  deriving DecidableEq, Repr

/--
State of a MemoryReader (src/core/GameController.ts, MemoryReader class):
the loaded data.json table (none before loadGame), the discovered memory
offset, and the bridge readMemoryBytes primitive, which can fail (for
example with "Emulator not ready").
-/
structure MemoryReaderModel where
  dataJson : Option (List (String × VariableMapping))
  memoryOffset : Int
  readMemoryBytes : Int → Nat → Except String (List Nat)

/-- Model of MemoryReader.getVariableNames. -/
def MemoryReaderModel.getVariableNames (r : MemoryReaderModel) : List String :=
  match r.dataJson with
  | none => []
  | some info => info.map Prod.fst

/-- Model of MemoryReader.readVariable: parse the spec, adjust the address, decode. -/
def MemoryReaderModel.readVariable (r : MemoryReaderModel) (mapping : VariableMapping) :
    Except String Int :=
  match parseTypeSpec mapping.type with
  | Except.error e => Except.error e
  | Except.ok parsed =>
    match r.readMemoryBytes (mapping.address + r.memoryOffset) parsed.bytes with
    | Except.error e => Except.error e
    | Except.ok rawBytes => Except.ok (MemoryReader.readMemoryTyped rawBytes parsed)

/-- Model of MemoryReader.getVariable: not-loaded and not-found conditions. -/
def MemoryReaderModel.getVariable (r : MemoryReaderModel) (name : String) : Except String Int :=
  match r.dataJson with
  | none => Except.error ("No game data loaded. Call loadGame() first.")
  | some info =>
    match info.lookup name with
    | none =>
      Except.error ("Variable \"" ++ name ++ "\" not found. Available: " ++
        String.intercalate (", ") (info.map Prod.fst))
    | some mapping => r.readVariable mapping

/-- Model of MemoryReader.getState: every variable is emitted; a failing read becomes 0. -/
def MemoryReaderModel.getState (r : MemoryReaderModel) : Except String (List (String × Int)) :=
  match r.dataJson with
  | none => Except.error ("No game data loaded. Call loadGame() first.")
  | some info =>
    Except.ok (info.map (fun p =>
      match r.readVariable p.2 with
      | Except.ok v => (p.1, v)
      | Except.error _ => (p.1, 0)))

/-- Concrete two-variable reader used to exercise the snapshot theorems:
the variable x reads one byte successfully, the variable bad hits a failing
bridge read. -/
def sampleInfo : List (String × VariableMapping) :=
  [("x", { address := 100, type := ">u1" }), ("bad", { address := 999, type := ">u1" })]

/-- Concrete MemoryReaderModel over sampleInfo. -/
def sampleReader : MemoryReaderModel :=
  { dataJson := some sampleInfo
    memoryOffset := 0
    readMemoryBytes := fun a _ =>
      if a = 100 then Except.ok [5] else Except.error ("Emulator not ready") }

/- ===================== CodeSandbox worker (src/sandbox/CodeSandbox.ts) ===================== -/

namespace Worker

/-- VALID_BUTTONS from the inline worker code. -/
def VALID_BUTTONS : List String :=
  ["a", "b", "x", "y", "l", "r", "l2", "r2", "select", "start", "l3", "r3",
   "up", "down", "left", "right"]

/-- One queued input action (press / release / releaseAll). -/
inductive InputAction
  | press (button : String)
  | release (button : String)
  | releaseAll
  deriving DecidableEq, Repr

/-- A JavaScript Error value: message and optional stack. -/
structure JsError where
  message : String
  stack : Option String
  deriving DecidableEq, Repr

/-- A step response sent from the host: absolute frame number and snapshot. -/
structure StepResponse where
  frameNumber : Nat
  state : List (String × Int)
  deriving DecidableEq, Repr

/--
The worker's currentExecution object: absolute frameNumber as last reported
by the host, run-relative framesExecuted, the frame budget, captured console
output, the most recent snapshot, held buttons and the queued inputs.
-/
structure WorkerExec where
  frameNumber : Nat
  framesExecuted : Nat
  maxFrames : Nat
  consoleOutput : List String
  currentState : List (String × Int)
  heldButtons : List String
  inputQueue : List InputAction
  deriving DecidableEq, Repr

/--
Host interface as seen through the message channel: the CodeSandbox host
applies each queued input to the GameController, advances the emulator one
frame, and reports the absolute frame number and a snapshot.
-/
structure HostIface (H : Type) where
  applyInput : H → InputAction → H
  advance : H → H
  frame : H → Nat
  snap : H → List (String × Int)

variable {H : Type}

/-- Model of CodeSandbox.handleStepRequest: apply inputs in order, step once, respond. -/
def handleStepRequest (ifc : HostIface H) (h : H) (inputs : List InputAction) :
    H × StepResponse :=
  let h1 := inputs.foldl ifc.applyInput h
  let h2 := ifc.advance h1
  (h2, { frameNumber := ifc.frame h2, state := ifc.snap h2 })

/--
Model of the worker's requestStep: the budget is checked against the
run-relative framesExecuted (not the absolute frameNumber); on success the
queue is flushed to the host, one frame is stepped, and framesExecuted is
incremented. A failure carries the unchanged execution and host state, as
the thrown exception leaves them in JavaScript.
-/
def requestStep (ifc : HostIface H) (e : WorkerExec) (h : H) :
    Except (JsError × WorkerExec × H) (WorkerExec × H) :=
  if e.framesExecuted ≥ e.maxFrames then
    Except.error ({ message := "Maximum frames exceeded", stack := none }, e, h)
  else
    let stepped := handleStepRequest ifc h e.inputQueue
    Except.ok ({ e with inputQueue := []
                        frameNumber := stepped.2.frameNumber
                        framesExecuted := e.framesExecuted + 1
                        currentState := stepped.2.state }, stepped.1)

/-- Model of game.press from createGameAPI. -/
def press (b : String) (e : WorkerExec) : Except JsError WorkerExec :=
  if b ∈ VALID_BUTTONS then
    Except.ok { e with
      heldButtons := if b ∈ e.heldButtons then e.heldButtons else e.heldButtons ++ [b]
      inputQueue := e.inputQueue ++ [InputAction.press b] }
  else
    Except.error { message := "Invalid button: " ++ b ++ ". Valid: " ++
      String.intercalate (", ") VALID_BUTTONS, stack := none }

/-- Model of game.release. -/
def release (b : String) (e : WorkerExec) : Except JsError WorkerExec :=
  if b ∈ VALID_BUTTONS then
    Except.ok { e with
      heldButtons := e.heldButtons.filter (fun x => x ≠ b)
      inputQueue := e.inputQueue ++ [InputAction.release b] }
  else
    Except.error { message := "Invalid button: " ++ b, stack := none }

/-- Model of game.releaseAll. -/
def releaseAll (e : WorkerExec) : WorkerExec :=
  { e with heldButtons := [], inputQueue := e.inputQueue ++ [InputAction.releaseAll] }

/-- Model of game.getVariable: reads the most recent snapshot. -/
def getVariable (name : String) (e : WorkerExec) : Except JsError Int :=
  match e.currentState.lookup name with
  | none => Except.error { message := "Variable \"" ++ name ++ "\" not found", stack := none }
  | some v => Except.ok v

/-- Model of the sandboxed console: capture one line into consoleOutput. -/
def sandboxLog (level : String) (msg : String) (e : WorkerExec) : WorkerExec :=
  { e with consoleOutput := e.consoleOutput ++ ["[" ++ level ++ "] " ++ msg] }

/-- The getter game.frameNumber: returns the run-relative framesExecuted. -/
def gameFrameNumber (e : WorkerExec) : Nat := e.framesExecuted

/--
Abstract syntax of the capability surface a student script can exercise:
each constructor is one call of the game API (tap and hold are the composed
forms from createGameAPI), plus console logging and an arbitrary thrown
error standing for any other script exception.
-/
inductive Cmd
  | press (b : String)
  | release (b : String)
  | releaseAll
  | tap (b : String)
  | hold (b : String) (n : Nat)
  | step
  | stepFrames (n : Nat)
  | wait (n : Nat)
  | getVariable (name : String)
  | getState
  | log (msg : String)
  | throwErr (err : JsError)
  deriving DecidableEq, Repr

/-- Model of game.stepFrames(n): n sequential requestStep calls. -/
def stepLoop (ifc : HostIface H) : Nat → WorkerExec → H →
    Except (JsError × WorkerExec × H) (WorkerExec × H)
  | 0, e, h => Except.ok (e, h)
  | Nat.succ n, e, h =>
    match requestStep ifc e h with
    | Except.error x => Except.error x
    | Except.ok p => stepLoop ifc n p.1 p.2

/-- Lift a pure API result into the script-execution monad. -/
def liftApi (r : Except JsError WorkerExec) (e : WorkerExec) (h : H) :
    Except (JsError × WorkerExec × H) (WorkerExec × H) :=
  match r with
  | Except.ok e1 => Except.ok (e1, h)
  | Except.error err => Except.error (err, e, h)

/-- Run one script command against the game API. -/
def runCmd (ifc : HostIface H) : Cmd → WorkerExec → H →
    Except (JsError × WorkerExec × H) (WorkerExec × H)
  | Cmd.press b, e, h => liftApi (press b e) e h
  | Cmd.release b, e, h => liftApi (release b e) e h
  | Cmd.releaseAll, e, h => Except.ok (releaseAll e, h)
  | Cmd.tap b, e, h =>
    match liftApi (press b e) e h with
    | Except.error x => Except.error x
    | Except.ok p1 =>
      match requestStep ifc p1.1 p1.2 with
      | Except.error x => Except.error x
      | Except.ok p2 => liftApi (release b p2.1) p2.1 p2.2
  | Cmd.hold b n, e, h =>
    match liftApi (press b e) e h with
    | Except.error x => Except.error x
    | Except.ok p1 =>
      match stepLoop ifc n p1.1 p1.2 with
      | Except.error x => Except.error x
      | Except.ok p2 => liftApi (release b p2.1) p2.1 p2.2
  | Cmd.step, e, h => requestStep ifc e h
  | Cmd.stepFrames n, e, h => stepLoop ifc n e h
  | Cmd.wait n, e, h => stepLoop ifc n e h
  | Cmd.getVariable name, e, h =>
    match getVariable name e with
    | Except.ok _ => Except.ok (e, h)
    | Except.error err => Except.error (err, e, h)
  | Cmd.getState, e, h => Except.ok (e, h)
  | Cmd.log msg, e, h => Except.ok (sandboxLog ("log") msg e, h)
  | Cmd.throwErr err, e, h => Except.error (err, e, h)

/-- Run a script (a list of commands) to completion or to its first thrown error. -/
def runScript (ifc : HostIface H) : List Cmd → WorkerExec → H →
    Except (JsError × WorkerExec × H) (WorkerExec × H)
  | [], e, h => Except.ok (e, h)
  | c :: cs, e, h =>
    match runCmd ifc c e h with
    | Except.error x => Except.error x
    | Except.ok p => runScript ifc cs p.1 p.2

/--
The execution state right after executeCode initializes currentExecution and
performs the initial getState request: framesExecuted is 0 for every new run,
while frameNumber holds the host's absolute frame count.
-/
def startState (ifc : HostIface H) (maxFrames : Nat) (h : H) : WorkerExec :=
  { frameNumber := ifc.frame h
    framesExecuted := 0
    maxFrames := maxFrames
    consoleOutput := []
    currentState := ifc.snap h
    heldButtons := []
    inputQueue := [] }

/-- The structured result the worker posts back (sandbox/types.ts). -/
structure SandboxExecutionResult where
  completed : Bool
  framesExecuted : Nat
  error : Option String
  errorStack : Option String
  consoleOutput : List String
  deriving DecidableEq, Repr

/-- JavaScript `error.message || String(error)` for an Error value. -/
def jsErrorMessage (err : JsError) : String :=
  if err.message = "" then "Error" else err.message

/--
Model of the worker's executeCode: run the script inside try/catch and in
both cases return a structured result; a thrown error is captured, never
re-raised.
-/
def executeCode (ifc : HostIface H) (code : List Cmd) (maxFrames : Nat) (h : H) :
    SandboxExecutionResult × H :=
  let e0 := startState ifc maxFrames h
  match runScript ifc code e0 h with
  | Except.ok p =>
    ({ completed := true, framesExecuted := p.1.framesExecuted, error := none,
       errorStack := none, consoleOutput := p.1.consoleOutput }, p.2)
  | Except.error x =>
    ({ completed := false, framesExecuted := x.2.1.framesExecuted,
       error := some (jsErrorMessage x.1), errorStack := x.1.stack,
       consoleOutput := x.2.1.consoleOutput }, x.2.2)

/-- The worker/host state a script execution left behind, whether or not the
script threw (currentExecution survives a thrown error until the catch reads it). -/
def outState : Except (JsError × WorkerExec × H) (WorkerExec × H) → WorkerExec × H
  | Except.ok p => p
  | Except.error x => x.2

/-- Host instance that counts emulator frame advances; its absolute frame is the count. -/
def countIface : HostIface Nat :=
  { applyInput := fun h _ => h
    advance := fun h => h + 1
    frame := fun h => h
    snap := fun _ => [] }

end Worker

/- ===================== ChallengeEngine (src/challenges, ChallengeEngine part) ===================== -/

/-- Goal tracking inside runChallenge: the goalMet flag and goalFrame. -/
structure GoalTrack where
  goalMet : Bool
  goalFrame : Nat
  deriving DecidableEq, Repr

/-- One onStep callback invocation: the absolute frame number passed by the
host and the outcome of controller.getState() at that moment (it can throw). -/
structure Sample where
  frame : Nat
  state : Except String (List (String × Int))

/-- The finalState local of runChallenge: getState() with errors ignored,
leaving the empty object. -/
def finalStateOf : Except String (List (String × Int)) → List (String × Int)
  | Except.ok s => s
  | Except.error _ => []

/--
Model of the onStep closure of ChallengeEngine.runChallenge: every 10th
frame the state is read and the goal checked, guarded by the goalMet flag;
a getState error skips the check; off-cadence frames do nothing.
-/
def sampleStep (goal : List (String × Int) → Bool) (g : GoalTrack) (s : Sample) : GoalTrack :=
  if s.frame % 10 = 0 then
    match s.state with
    | Except.ok st =>
      if !g.goalMet && goal st then { goalMet := true, goalFrame := s.frame } else g
    | Except.error _ => g
  else g

/-- A sample at which the goal predicate is observed to hold: on the sampling
cadence, with a successful state read, and the goal true of that state. -/
def isHit (goal : List (String × Int) → Bool) (s : Sample) : Bool :=
  (s.frame % 10 == 0) &&
    (match s.state with
     | Except.ok st => goal st
     | Except.error _ => false)

/-- ChallengeStatus from src/challenges (types). -/
inductive ChallengeStatus
  | idle
  | running
  | success
  | failure
  | timeout
  | error
  deriving DecidableEq, Repr

/-- ChallengeResult from src/challenges (types). -/
structure ChallengeResult where
  success : Bool
  message : String
  framesUsed : Nat
  finalState : List (String × Int)
  error : Option String
  errorStack : Option String
  deriving DecidableEq, Repr

/-- JavaScript truthiness of the optional error string in `if (execResult.error)`. -/
def jsTruthyStr : Option String → Bool
  | none => false
  | some s => !(s == "")

/--
Model of the tail of ChallengeEngine.runChallenge, from the goal-sampling
fold through the returned ChallengeResult: fold the onStep goal checks over
the samples, re-check the goal once against the final state, then resolve
error / success / timeout / failure in the source's order.
-/
def resolveChallenge (maxFrames : Nat) (goal : List (String × Int) → Bool)
    (samples : List Sample) (exec : Worker.SandboxExecutionResult)
    (finalRead : Except String (List (String × Int))) : ChallengeStatus × ChallengeResult :=
  let g0 := samples.foldl (sampleStep goal) { goalMet := false, goalFrame := 0 }
  let finalState := finalStateOf finalRead
  let g := if !g0.goalMet && goal finalState then
             { goalMet := true, goalFrame := exec.framesExecuted } else g0
  if jsTruthyStr exec.error then
    (ChallengeStatus.error,
     { success := false, message := "Error: " ++ exec.error.getD (""),
       framesUsed := exec.framesExecuted, finalState := finalState,
       error := exec.error, errorStack := exec.errorStack })
  else if g.goalMet then
    (ChallengeStatus.success,
     { success := true, message := "Goal achieved in " ++ toString g.goalFrame ++ " frames!",
       framesUsed := g.goalFrame, finalState := finalState, error := none, errorStack := none })
  else if exec.framesExecuted ≥ maxFrames then
    (ChallengeStatus.timeout,
     { success := false,
       message := "Timeout: Goal not achieved within " ++ toString maxFrames ++ " frames.",
       framesUsed := exec.framesExecuted, finalState := finalState,
       error := none, errorStack := none })
  else
    (ChallengeStatus.failure,
     { success := false, message := "Code completed but goal was not achieved.",
       framesUsed := exec.framesExecuted, finalState := finalState,
       error := none, errorStack := none })

/--
The member names the GameController class defines (fields, getters and
methods), transcribed from src/core/GameController.ts. The guard in
runChallenge reads controller.isMemoryDiscovered, which is not among them.
-/
def gameControllerMembers : List String :=
  ["bridge", "playerIndex", "heldButtons", "ramOffset", "memoryReader",
   "setRamOffset", "getRamOffset", "press", "release", "releaseAll", "tap",
   "hold", "holdMultiple", "isPressed", "step", "stepFrames", "frameNumber",
   "pause", "play", "readMemory", "readByte", "readBytes", "loadGameData",
   "discoverMemory", "getVariable", "getState", "getVariableNames",
   "hasVariable", "hasGameData", "getMemoryReader", "saveState", "loadState",
   "screenshot", "restart", "wait", "isReady", "getBridge"]

/-- JavaScript property access on an object: undefined when the member is
absent, otherwise the member's value (here, its truthiness). -/
def jsMember (members : List String) (val : String → Bool) (name : String) : Option Bool :=
  if name ∈ members then some (val name) else none

/-- JavaScript truthiness of a possibly-undefined property value. -/
def jsTruthyProp : Option Bool → Bool
  | none => false
  | some b => b

/-- Observables of one runChallenge invocation as modelled here. -/
structure EngineRun where
  discoveryCalled : Bool
  memoryOffsetAfter : Int
  status : ChallengeStatus
  result : ChallengeResult

/-- CONSOLE_RAM_OFFSETS.genesis from src/core/GameController.ts. -/
def genesisRamOffset : Int := 16711680

/--
Model of the discovery-and-resolution flow of ChallengeEngine.runChallenge:
the skip guard reads controller.isMemoryDiscovered through jsMember; unless
it is truthy, discoverMemory runs inside try/catch, setting the reader's
memory offset on success and leaving it unchanged on failure (the catch only
logs); either way the code executes and the run is resolved normally. The
sandbox execution is abstracted by its observables (samples, exec result,
final state read), which discovery does not influence in this model.
-/
def runChallengeModel (members : List String) (val : String → Bool) (priorOffset : Int)
    (discovery : Except String Nat) (maxFrames : Nat)
    (goal : List (String × Int) → Bool) (samples : List Sample)
    (exec : Worker.SandboxExecutionResult)
    (finalRead : Except String (List (String × Int))) : EngineRun :=
  let skip := jsTruthyProp (jsMember members val ("isMemoryDiscovered"))
  let offset :=
    if skip then priorOffset
    else
      match discovery with
      | Except.ok base => (base : Int) - genesisRamOffset
      | Except.error _ => priorOffset
  let sr := resolveChallenge maxFrames goal samples exec finalRead
  { discoveryCalled := !skip, memoryOffsetAfter := offset,
    status := sr.1, result := sr.2 }

/- ===================== EmulatorBridge.discoverWorkRamBase ===================== -/

/-- First marker value written through the cheat system. -/
def MARKER1 : Nat := 0xA7

/-- Second marker value. -/
def MARKER2 : Nat := 0x53

/-- Relative offset of the lives byte within the 64KiB work RAM. -/
def LIVES_OFFSET : Nat := 0xFE12

/-- Default lives value restored after discovery. -/
def DEFAULT_LIVES : Nat := 3

/--
Phase 1 of discoverWorkRamBase: every heap position holding MARKER1 whose
implied base (position − LIVES_OFFSET, computed in Int as in JavaScript) is
in bounds with room for the full 64KiB region.
-/
def marker1Positions (heap1 : List Nat) : List Nat :=
  (List.range heap1.length).filter (fun i =>
    heap1.getD i 0 == MARKER1 &&
      (decide (0 ≤ (i : Int) - (LIVES_OFFSET : Int)) &&
       decide ((i : Int) - (LIVES_OFFSET : Int) + 0xFFFF < (heap1.length : Int))))

/-- Phase 2 of discoverWorkRamBase: the phase-1 candidates now holding MARKER2. -/
def discoveryMatches (heap1 heap2 : List Nat) : List Nat :=
  (marker1Positions heap1).filter (fun pos => heap2.getD pos 0 == MARKER2)

/--
Model of EmulatorBridge.discoverWorkRamBase over three snapshots of the
HEAPU8 heap: heap1 after the MARKER1 write took effect, heap2 after the
MARKER2 write, heap3 after the cheats were cleared. Phase-1 candidates
guarantee pos ≥ LIVES_OFFSET, so the Nat subtractions below agree with the
source's Int arithmetic. Returns the discovered base together with the heap
after the clobbered lives byte is restored; zero survivors raise the
discovery-failed error.
-/
def discoverWorkRamBase (heap1 heap2 heap3 : List Nat) : Except String (Nat × List Nat) :=
  let ms := discoveryMatches heap1 heap2
  if ms.isEmpty then
    Except.error ("Failed to discover work RAM base: no matching positions found")
  else
    let discoveredBase :=
      match ms.find? (fun livesAddr =>
          decide (heap3.getD (livesAddr - LIVES_OFFSET + 0xFE10) 0 ≤ 20)) with
      | some livesAddr => livesAddr - LIVES_OFFSET
      | none => ms.headD 0 - LIVES_OFFSET
    Except.ok (discoveredBase, heap3.set (discoveredBase + LIVES_OFFSET) DEFAULT_LIVES)

/--
Modelled from the spec: phase 1 keeps exactly the heap positions whose byte
equals the first marker and for which a full 64KiB region fits in bounds
starting at (position minus the known relative offset).
-/
def specCandidates (heap1 : List Nat) : List Nat :=
  (List.range heap1.length).filter (fun i =>
    heap1.getD i 0 == MARKER1 &&
      (decide (LIVES_OFFSET ≤ i) && decide (i - LIVES_OFFSET + 65536 ≤ heap1.length)))

/-- Modelled from the spec: phase 2 keeps only candidates whose byte now
equals the second marker. -/
def specSurvivors (heap1 heap2 : List Nat) : List Nat :=
  (specCandidates heap1).filter (fun pos => heap2.getD pos 0 == MARKER2)

/--
Modelled from the spec: if any candidates survive both phases, the chosen
base comes from the first survivor whose zone byte at the second known
relative offset is within the sane bound (at most 20), otherwise from the
first survivor; the clobbered byte at the marker offset is then restored to
the sane default. Zero survivors fail with the discovery-failed condition.
-/
def specDiscovery (heap1 heap2 heap3 : List Nat) : Except String (Nat × List Nat) :=
  match specSurvivors heap1 heap2 with
  | [] => Except.error ("Failed to discover work RAM base: no matching positions found")
  | first :: rest =>
    let chosen :=
      match (first :: rest).find? (fun pos =>
          decide (heap3.getD (pos - LIVES_OFFSET + 0xFE10) 0 ≤ 20)) with
      | some pos => pos
      | none => first
    let base := chosen - LIVES_OFFSET
    Except.ok (base, heap3.set (base + LIVES_OFFSET) DEFAULT_LIVES)

/- ===================== Theorems ===================== -/

/-- Folding the goal check from a met state never changes the track. -/
theorem goalFold_met (goal : List (String × Int) → Bool) (l : List Sample) (T : Nat) :
    l.foldl (sampleStep goal) { goalMet := true, goalFrame := T }
      = { goalMet := true, goalFrame := T } := by
  induction l with
  | nil => rfl
  | cons s l ih =>
    have hstep : sampleStep goal { goalMet := true, goalFrame := T } s
        = { goalMet := true, goalFrame := T } := by
      unfold sampleStep
      split
      · cases s.state <;> simp
      · rfl
    simpa [hstep] using ih

/-- The goal fold from the initial state records exactly the first hit sample. -/
theorem goalFold_find (goal : List (String × Int) → Bool) (samples : List Sample) :
    samples.foldl (sampleStep goal) { goalMet := false, goalFrame := 0 }
      = (match samples.find? (isHit goal) with
         | some s => { goalMet := true, goalFrame := s.frame }
         | none => { goalMet := false, goalFrame := 0 }) := by
  induction samples with
  | nil => rfl
  | cons s l ih =>
    by_cases hhit : isHit goal s = true
    · have hstep : sampleStep goal { goalMet := false, goalFrame := 0 } s
          = { goalMet := true, goalFrame := s.frame } := by
        unfold isHit at hhit
        unfold sampleStep
        rcases hst : s.state with msg | st
        · simp [hst] at hhit
        · simp [hst] at hhit
          simp [hhit.1, hhit.2, hst]
      simp only [List.foldl_cons, List.find?_cons, hhit, hstep]
      exact goalFold_met goal l s.frame
    · have hstep : sampleStep goal { goalMet := false, goalFrame := 0 } s
          = { goalMet := false, goalFrame := 0 } := by
        unfold isHit at hhit
        unfold sampleStep
        rcases hst : s.state with msg | st
        · split <;> rfl
        · by_cases hc : s.frame % 10 = 0
          · simp [hst, hc] at hhit
            simp [hst, hc, hhit]
          · simp [hc]
      rw [List.foldl_cons, hstep, List.find?_cons]
      simp only [hhit]
      exact ih

/--
C9: Goal evaluation within one run is first-match-wins and idempotent: the
goal fold over the sampled ticks records exactly the first sample at which
the predicate holds (the first hit's frame becomes the recorded
ticks-to-goal, short-circuiting all further evaluation), and once the track
is in a met state at tick T, folding any later samples never changes the
recorded frame away from T.
-/
theorem goal_evaluation_first_match_wins (goal : List (String × Int) → Bool)
    (samples : List Sample) :
    (samples.foldl (sampleStep goal) { goalMet := false, goalFrame := 0 }
      = (match samples.find? (isHit goal) with
         | some s => { goalMet := true, goalFrame := s.frame }
         | none => { goalMet := false, goalFrame := 0 }))
    ∧ (∀ (T : Nat) (later : List Sample),
        later.foldl (sampleStep goal) { goalMet := true, goalFrame := T }
          = { goalMet := true, goalFrame := T }) :=
  ⟨goalFold_find goal samples, fun T later => goalFold_met goal later T⟩

/--
C8: the claimed reference decoding fails on the code for width 4. The
four-byte big-endian read of FF FF FF FF declared signed returns -2 from
readMemoryTyped (the JavaScript `1 << 32` evaluates to 1, so the sign
correction subtracts 1 instead of 2^32) while the reference two's-complement
decoding gives -1; the unsigned read of 80 00 00 00 returns the negative
int32 -2147483648 instead of the exact integer 2147483648 in [0, 2^32).
Widths 1 and 2 are unaffected, as the extra conjuncts illustrate.
-/
theorem readMemoryTyped_w4_divergence :
    MemoryReader.readMemoryTyped [255, 255, 255, 255]
        { endian := Endian.big, signed := true, bytes := 4 } = -2
    ∧ referenceDecode [255, 255, 255, 255] Endian.big true 4 = -1
    ∧ MemoryReader.readMemoryTyped [128, 0, 0, 0]
        { endian := Endian.big, signed := false, bytes := 4 } = -2147483648
    ∧ referenceDecode [128, 0, 0, 0] Endian.big false 4 = 2147483648
    ∧ MemoryReader.readMemoryTyped [255, 255]
        { endian := Endian.big, signed := true, bytes := 2 }
      = referenceDecode [255, 255] Endian.big true 2
    ∧ MemoryReader.readMemoryTyped [255]
        { endian := Endian.big, signed := true, bytes := 1 }
      = referenceDecode [255] Endian.big true 1 := by
  refine ⟨?_, ?_, ?_, ?_, ?_, ?_⟩ <;> decide

/--
C1: runChallenge resolves exactly one terminal status by priority. With a
(non-empty) error string in the execution result the status is error; with
no error and a sampled hit, or a goal that holds on the final re-checked
state, the status is success and framesUsed is the recorded ticks-to-goal
(the first hit's frame, or the frames executed when only the final re-check
hits); with no error, no hit anywhere and frames executed at least
maxFrames the status is timeout; otherwise it is failure.
-/
theorem runChallenge_terminal_status_priority (maxFrames : Nat)
    (goal : List (String × Int) → Bool) (samples : List Sample)
    (exec : Worker.SandboxExecutionResult)
    (finalRead : Except String (List (String × Int))) :
    (∀ errMsg, exec.error = some errMsg → errMsg ≠ "" →
       (resolveChallenge maxFrames goal samples exec finalRead).1 = ChallengeStatus.error
       ∧ (resolveChallenge maxFrames goal samples exec finalRead).2.framesUsed
           = exec.framesExecuted)
    ∧ (exec.error = none →
       ∀ s, samples.find? (isHit goal) = some s →
         (resolveChallenge maxFrames goal samples exec finalRead).1 = ChallengeStatus.success
         ∧ (resolveChallenge maxFrames goal samples exec finalRead).2.framesUsed = s.frame)
    ∧ (exec.error = none → samples.find? (isHit goal) = none →
       goal (finalStateOf finalRead) = true →
         (resolveChallenge maxFrames goal samples exec finalRead).1 = ChallengeStatus.success
         ∧ (resolveChallenge maxFrames goal samples exec finalRead).2.framesUsed
             = exec.framesExecuted)
    ∧ (exec.error = none → samples.find? (isHit goal) = none →
       goal (finalStateOf finalRead) = false → exec.framesExecuted ≥ maxFrames →
         (resolveChallenge maxFrames goal samples exec finalRead).1 = ChallengeStatus.timeout
         ∧ (resolveChallenge maxFrames goal samples exec finalRead).2.framesUsed
             = exec.framesExecuted)
    ∧ (exec.error = none → samples.find? (isHit goal) = none →
       goal (finalStateOf finalRead) = false → exec.framesExecuted < maxFrames →
         (resolveChallenge maxFrames goal samples exec finalRead).1 = ChallengeStatus.failure
         ∧ (resolveChallenge maxFrames goal samples exec finalRead).2.framesUsed
             = exec.framesExecuted) := by
  refine ⟨?_, ?_, ?_, ?_, ?_⟩
  · intro errMsg herr hne
    have htr : jsTruthyStr exec.error = true := by
      simp [jsTruthyStr, herr, hne]
    simp [resolveChallenge, htr]
  · intro herr s hfind
    unfold resolveChallenge
    rw [goalFold_find, hfind]
    simp [jsTruthyStr, herr]
  · intro herr hfind hgoal
    unfold resolveChallenge
    rw [goalFold_find, hfind]
    simp [jsTruthyStr, herr, hgoal]
  · intro herr hfind hgoal hge
    unfold resolveChallenge
    rw [goalFold_find, hfind]
    simp [jsTruthyStr, herr, hgoal, hge]
  · intro herr hfind hgoal hlt
    unfold resolveChallenge
    rw [goalFold_find, hfind]
    simp [jsTruthyStr, herr, hgoal, Nat.not_le_of_lt hlt]

/--
C1 witness: at a concrete run whose execution result carries the error
"boom" after 7 frames, even though a sampled hit exists, the status is
error with framesUsed 7; and at a concrete error-free run whose first
sampled hit is at frame 0, the status is success with framesUsed 0.
-/
theorem runChallenge_terminal_status_priority_witness :
    ((resolveChallenge 10 (fun _ => true) [{ frame := 0, state := Except.ok [] }]
        { completed := false, framesExecuted := 7, error := some ("boom"),
          errorStack := none, consoleOutput := [] }
        (Except.error ("x"))).1 = ChallengeStatus.error
      ∧ (resolveChallenge 10 (fun _ => true) [{ frame := 0, state := Except.ok [] }]
          { completed := false, framesExecuted := 7, error := some ("boom"),
            errorStack := none, consoleOutput := [] }
          (Except.error ("x"))).2.framesUsed = 7)
    ∧ ((resolveChallenge 10 (fun _ => true) [{ frame := 0, state := Except.ok [] }]
          { completed := true, framesExecuted := 42, error := none,
            errorStack := none, consoleOutput := [] }
          (Except.error ("x"))).1 = ChallengeStatus.success
      ∧ (resolveChallenge 10 (fun _ => true) [{ frame := 0, state := Except.ok [] }]
          { completed := true, framesExecuted := 42, error := none,
            errorStack := none, consoleOutput := [] }
          (Except.error ("x"))).2.framesUsed = 0) :=
  ⟨(runChallenge_terminal_status_priority 10 (fun _ => true)
      [{ frame := 0, state := Except.ok [] }]
      { completed := false, framesExecuted := 7, error := some ("boom"),
        errorStack := none, consoleOutput := [] }
      (Except.error ("x"))).1 ("boom") rfl (by decide),
   (runChallenge_terminal_status_priority 10 (fun _ => true)
      [{ frame := 0, state := Except.ok [] }]
      { completed := true, framesExecuted := 42, error := none,
        errorStack := none, consoleOutput := [] }
      (Except.error ("x"))).2.1 rfl { frame := 0, state := Except.ok [] } rfl⟩

/--
C10: the GameController class never defines a member named
isMemoryDiscovered, so the property access in runChallenge's guard yields
undefined, which is falsy: the skip branch is unreachable and discovery is
attempted on every invocation of runChallenge, whatever the member values,
prior offset, discovery outcome and execution observables are.
-/
theorem isMemoryDiscovered_guard_unreachable :
    ("isMemoryDiscovered" ∉ gameControllerMembers)
    ∧ (∀ (val : String → Bool) (priorOffset : Int) (discovery : Except String Nat)
         (maxFrames : Nat) (goal : List (String × Int) → Bool) (samples : List Sample)
         (exec : Worker.SandboxExecutionResult)
         (finalRead : Except String (List (String × Int))),
        (runChallengeModel gameControllerMembers val priorOffset discovery maxFrames
            goal samples exec finalRead).discoveryCalled = true) := by
  have hnm : ("isMemoryDiscovered" : String) ∉ gameControllerMembers := by decide
  refine ⟨hnm, ?_⟩
  intro val priorOffset discovery maxFrames goal samples exec finalRead
  simp [runChallengeModel, jsMember, jsTruthyProp, hnm]

/--
C5: if zero candidates survive phase 2 of the marker scan, discovery fails
cleanly with the discovery-failed condition (an Except error, never an
uncontrolled crash); and a discovery failure is non-fatal to runChallenge:
the memory offset is simply left unchanged (so only named-variable reads
degrade) and the run proceeds to the ordinary resolution of the executed
code, whose status and result are exactly those of resolveChallenge.
-/
theorem discovery_failure_nonfatal (heap1 heap2 heap3 : List Nat) :
    (discoveryMatches heap1 heap2 = [] →
       discoverWorkRamBase heap1 heap2 heap3
         = Except.error ("Failed to discover work RAM base: no matching positions found"))
    ∧ (∀ (members : List String) (val : String → Bool) (priorOffset : Int) (errMsg : String)
         (maxFrames : Nat) (goal : List (String × Int) → Bool) (samples : List Sample)
         (exec : Worker.SandboxExecutionResult)
         (finalRead : Except String (List (String × Int))),
        (runChallengeModel members val priorOffset (Except.error errMsg) maxFrames
            goal samples exec finalRead).memoryOffsetAfter = priorOffset
        ∧ (runChallengeModel members val priorOffset (Except.error errMsg) maxFrames
            goal samples exec finalRead).status
            = (resolveChallenge maxFrames goal samples exec finalRead).1
        ∧ (runChallengeModel members val priorOffset (Except.error errMsg) maxFrames
            goal samples exec finalRead).result
            = (resolveChallenge maxFrames goal samples exec finalRead).2) := by
  constructor
  · intro h
    simp [discoverWorkRamBase, h]
  · intro members val priorOffset errMsg maxFrames goal samples exec finalRead
    refine ⟨?_, rfl, rfl⟩
    simp [runChallengeModel]

/--
C5 witness: on the empty heap no candidate survives and discovery returns
the discovery-failed error.
-/
theorem discovery_failure_nonfatal_witness :
    discoverWorkRamBase [] [] []
      = Except.error ("Failed to discover work RAM base: no matching positions found") :=
  (discovery_failure_nonfatal [] [] []).1 rfl

/-- The phase-1 bound test of the source (Int arithmetic) agrees with the
spec's phrasing (offset below the position, full 64KiB region in bounds). -/
theorem marker1Positions_eq_specCandidates (heap1 : List Nat) :
    marker1Positions heap1 = specCandidates heap1 := by
  unfold marker1Positions specCandidates
  apply List.filter_congr
  intro i _
  have h2 : (decide (0 ≤ (i : Int) - (LIVES_OFFSET : Int)) &&
        decide ((i : Int) - (LIVES_OFFSET : Int) + 0xFFFF < (heap1.length : Int)))
      = (decide (LIVES_OFFSET ≤ i) && decide (i - LIVES_OFFSET + 65536 ≤ heap1.length)) := by
    rw [← Bool.decide_and, ← Bool.decide_and]
    apply decide_eq_decide.mpr
    unfold LIVES_OFFSET
    omega
  rw [h2]

/--
C6: the source's discoverWorkRamBase coincides, on every triple of heap
snapshots, with the discovery procedure stated from the claim: phase 1
keeps exactly the in-bounds MARKER1 positions, phase 2 keeps the candidates
now reading MARKER2, the base is taken from the first survivor whose zone
byte is at most 20 (otherwise the first survivor), and the clobbered lives
byte at the marker offset is restored to the sane default value.
-/
theorem discoverWorkRamBase_matches_spec (heap1 heap2 heap3 : List Nat) :
    discoverWorkRamBase heap1 heap2 heap3 = specDiscovery heap1 heap2 heap3 := by
  have hms : discoveryMatches heap1 heap2 = specSurvivors heap1 heap2 := by
    unfold discoveryMatches specSurvivors
    rw [marker1Positions_eq_specCandidates]
  have hsel : ∀ (r : Option Nat) (d : Nat),
      (match r with
       | some a => a - LIVES_OFFSET
       | none => d - LIVES_OFFSET)
      = (match r with
         | some a => a
         | none => d) - LIVES_OFFSET := by
    intro r d
    cases r <;> rfl
  unfold discoverWorkRamBase specDiscovery
  rw [hms]
  cases h : specSurvivors heap1 heap2 with
  | nil => simp
  | cons first rest =>
    simp only [List.isEmpty_cons, Bool.false_eq_true, if_false, List.headD_cons, hsel]

/-- A list is Forall₂-related to its image under f when R a (f a) holds for every a. -/
theorem forall₂_map_self {α β : Type} (f : α → β) (R : α → β → Prop)
    (h : ∀ a, R a (f a)) : ∀ l : List α, List.Forall₂ R l (l.map f)
  | [] => List.Forall₂.nil
  | a :: l => List.Forall₂.cons (h a) (forall₂_map_self f R h l)

/--
C7: with no table loaded, getVariable and getState fail with the not-loaded
error; with a table loaded, getVariable fails with the not-found error
exactly when the name is absent, and getState always produces a full
snapshot: one entry per mapped variable, carrying the variable's decoded
value when its individual read succeeds and 0 when it fails.
-/
theorem memoryReader_snapshot_total (r : MemoryReaderModel) (name : String) :
    (r.dataJson = none →
       r.getVariable name = Except.error ("No game data loaded. Call loadGame() first.")
       ∧ r.getState = Except.error ("No game data loaded. Call loadGame() first."))
    ∧ (∀ info, r.dataJson = some info → info.lookup name = none →
        r.getVariable name
          = Except.error ("Variable \"" ++ name ++ "\" not found. Available: "
              ++ String.intercalate (", ") (info.map Prod.fst)))
    ∧ (∀ info, r.dataJson = some info →
        ∃ s, r.getState = Except.ok s
          ∧ List.Forall₂ (fun p q => q.1 = p.1
              ∧ ((∃ v, r.readVariable p.2 = Except.ok v ∧ q.2 = v)
                 ∨ (∃ msg, r.readVariable p.2 = Except.error msg ∧ q.2 = 0))) info s) := by
  refine ⟨?_, ?_, ?_⟩
  · intro h
    exact ⟨by simp [MemoryReaderModel.getVariable, h],
           by simp [MemoryReaderModel.getState, h]⟩
  · intro info hinfo hlk
    simp [MemoryReaderModel.getVariable, hinfo, hlk]
  · intro info hinfo
    refine ⟨info.map (fun p =>
        match r.readVariable p.2 with
        | Except.ok v => (p.1, v)
        | Except.error _ => (p.1, 0)), ?_, ?_⟩
    · simp [MemoryReaderModel.getState, hinfo]
    · apply forall₂_map_self
      intro p
      cases hv : r.readVariable p.2 with
      | ok v => exact ⟨rfl, Or.inl ⟨v, rfl, rfl⟩⟩
      | error msg => exact ⟨rfl, Or.inr ⟨msg, rfl, rfl⟩⟩

/--
C7 witness: on the concrete two-variable reader, the lookup of a missing
name fails with the not-found error listing the available names, and the
snapshot exists with one entry per variable related as the theorem states.
-/
theorem memoryReader_snapshot_total_witness :
    sampleReader.getVariable ("nope")
      = Except.error ("Variable \"nope\" not found. Available: x, bad")
    ∧ ∃ s, sampleReader.getState = Except.ok s
        ∧ List.Forall₂ (fun p q => q.1 = p.1
            ∧ ((∃ v, sampleReader.readVariable p.2 = Except.ok v ∧ q.2 = v)
               ∨ (∃ msg, sampleReader.readVariable p.2 = Except.error msg ∧ q.2 = 0)))
            sampleInfo s :=
  ⟨(memoryReader_snapshot_total sampleReader ("nope")).2.1 sampleInfo rfl rfl,
   (memoryReader_snapshot_total sampleReader ("nope")).2.2 sampleInfo rfl⟩

/-- With the budget exhausted, requestStep fails with the budget error and
leaves the execution and host untouched. -/
theorem requestStep_err {H : Type} (ifc : Worker.HostIface H) (e : Worker.WorkerExec) (h : H)
    (hge : e.framesExecuted ≥ e.maxFrames) :
    Worker.requestStep ifc e h
      = Except.error ({ message := "Maximum frames exceeded", stack := none }, e, h) := by
  unfold Worker.requestStep
  rw [if_pos hge]

/-- With budget remaining, requestStep succeeds, whatever the absolute frame number. -/
theorem requestStep_ok_exists {H : Type} (ifc : Worker.HostIface H) (e : Worker.WorkerExec)
    (h : H) (hlt : e.framesExecuted < e.maxFrames) :
    ∃ e' h', Worker.requestStep ifc e h = Except.ok (e', h') := by
  unfold Worker.requestStep
  rw [if_neg (by omega)]
  exact ⟨_, _, rfl⟩

/-- A successful requestStep adds exactly one to framesExecuted and preserves
the budget and the captured console output. -/
theorem requestStep_ok_fields {H : Type} (ifc : Worker.HostIface H) (e e' : Worker.WorkerExec)
    (h h' : H) (hok : Worker.requestStep ifc e h = Except.ok (e', h')) :
    e'.framesExecuted = e.framesExecuted + 1 ∧ e'.maxFrames = e.maxFrames
    ∧ e'.consoleOutput = e.consoleOutput := by
  unfold Worker.requestStep at hok
  split at hok
  · cases hok
  · simp only [Except.ok.injEq, Prod.mk.injEq] at hok
    obtain ⟨h1, _⟩ := hok
    subst h1
    exact ⟨rfl, rfl, rfl⟩

/-- A successful stepLoop of n steps adds exactly n to framesExecuted and
preserves the budget and the console output. -/
theorem stepLoop_ok_fields {H : Type} (ifc : Worker.HostIface H) :
    ∀ (n : Nat) (e e' : Worker.WorkerExec) (h h' : H),
    Worker.stepLoop ifc n e h = Except.ok (e', h') →
    e'.framesExecuted = e.framesExecuted + n ∧ e'.maxFrames = e.maxFrames
    ∧ e'.consoleOutput = e.consoleOutput := by
  intro n
  induction n with
  | zero =>
    intro e e' h h' hok
    unfold Worker.stepLoop at hok
    simp only [Except.ok.injEq, Prod.mk.injEq] at hok
    obtain ⟨h1, _⟩ := hok
    subst h1
    exact ⟨rfl, rfl, rfl⟩
  | succ n ih =>
    intro e e' h h' hok
    unfold Worker.stepLoop at hok
    cases hstep : Worker.requestStep ifc e h with
    | error x => rw [hstep] at hok; cases hok
    | ok p =>
      rw [hstep] at hok
      obtain ⟨hf, hm, hc⟩ := requestStep_ok_fields ifc e p.1 h p.2 hstep
      obtain ⟨hf2, hm2, hc2⟩ := ih p.1 e' p.2 h' hok
      refine ⟨by omega, by rw [hm2, hm], by rw [hc2, hc]⟩

/-- A stepLoop that requests more steps than the budget has room for fails
with the budget error, after consuming the budget exactly and capturing no
extra console output. -/
theorem stepLoop_budget {H : Type} (ifc : Worker.HostIface H) :
    ∀ (n : Nat) (e : Worker.WorkerExec) (h : H),
    e.framesExecuted ≤ e.maxFrames → e.maxFrames - e.framesExecuted < n →
    ∃ e1 h1, Worker.stepLoop ifc n e h
        = Except.error ({ message := "Maximum frames exceeded", stack := none }, e1, h1)
      ∧ e1.framesExecuted = e.maxFrames ∧ e1.consoleOutput = e.consoleOutput := by
  intro n
  induction n with
  | zero =>
    intro e h hle hlt
    omega
  | succ n ih =>
    intro e h hle hlt
    by_cases hcase : e.framesExecuted ≥ e.maxFrames
    · have heq : e.framesExecuted = e.maxFrames := by omega
      refine ⟨e, h, ?_, heq, rfl⟩
      unfold Worker.stepLoop
      rw [requestStep_err ifc e h hcase]
    · have hlt2 : e.framesExecuted < e.maxFrames := by omega
      obtain ⟨e1, h1, hok⟩ := requestStep_ok_exists ifc e h hlt2
      obtain ⟨hf, hm, hc⟩ := requestStep_ok_fields ifc e e1 h h1 hok
      obtain ⟨e2, h2, herr, hfin, hcon⟩ := ih e1 h1 (by omega) (by omega)
      refine ⟨e2, h2, ?_, by omega, by rw [hcon, hc]⟩
      unfold Worker.stepLoop
      rw [hok]
      exact herr

/-- Folding a constant function over a list leaves the accumulator unchanged. -/
theorem foldl_const_host : ∀ (q : List Worker.InputAction) (h : Nat),
    q.foldl (fun x _ => x) h = h
  | [], _ => rfl
  | _ :: q, h => foldl_const_host q h

/-- press leaves framesExecuted unchanged. -/
theorem press_framesExecuted (b : String) (e e1 : Worker.WorkerExec)
    (hok : Worker.press b e = Except.ok e1) : e1.framesExecuted = e.framesExecuted := by
  unfold Worker.press at hok
  split at hok
  · simp only [Except.ok.injEq] at hok
    subst hok
    rfl
  · cases hok

/-- release leaves framesExecuted unchanged. -/
theorem release_framesExecuted (b : String) (e e1 : Worker.WorkerExec)
    (hok : Worker.release b e = Except.ok e1) : e1.framesExecuted = e.framesExecuted := by
  unfold Worker.release at hok
  split at hok
  · simp only [Except.ok.injEq] at hok
    subst hok
    rfl
  · cases hok

/-- Count invariant for a lifted pure API call: the host count is unchanged
and so is framesExecuted. -/
theorem liftApi_count (r : Except Worker.JsError Worker.WorkerExec) (e : Worker.WorkerExec)
    (h : Nat) (hr : ∀ e1, r = Except.ok e1 → e1.framesExecuted = e.framesExecuted) :
    (Worker.outState (Worker.liftApi r e h)).2 + e.framesExecuted
      = h + (Worker.outState (Worker.liftApi r e h)).1.framesExecuted := by
  cases r with
  | ok e1 => simp [Worker.liftApi, Worker.outState, hr e1 rfl]
  | error err => rfl

/-- Count invariant for requestStep on the counting host: the host count
advances exactly as framesExecuted does. -/
theorem requestStep_count (e : Worker.WorkerExec) (h : Nat) :
    (Worker.outState (Worker.requestStep Worker.countIface e h)).2 + e.framesExecuted
      = h + (Worker.outState (Worker.requestStep Worker.countIface e h)).1.framesExecuted := by
  unfold Worker.requestStep
  split
  · rfl
  · simp [Worker.outState, Worker.handleStepRequest, Worker.countIface, foldl_const_host]
    omega


/-- Count invariant for stepLoop on the counting host. -/
theorem stepLoop_count : ∀ (n : Nat) (e : Worker.WorkerExec) (h : Nat),
    (Worker.outState (Worker.stepLoop Worker.countIface n e h)).2 + e.framesExecuted
      = h + (Worker.outState (Worker.stepLoop Worker.countIface n e h)).1.framesExecuted := by
  intro n
  induction n with
  | zero => intro e h; rfl
  | succ n ih =>
    intro e h
    have hc := requestStep_count e h
    simp only [Worker.stepLoop]
    cases hstep : Worker.requestStep Worker.countIface e h with
    | error x =>
      rw [hstep] at hc
      simp only [hstep, Worker.outState] at hc ⊢
      omega
    | ok p =>
      rw [hstep] at hc
      simp only [hstep, Worker.outState] at hc ⊢
      have h2 := ih p.1 p.2
      simp only [Worker.outState] at h2
      omega

/-- Count invariant for every single script command on the counting host. -/
theorem runCmd_count : ∀ (c : Worker.Cmd) (e : Worker.WorkerExec) (h : Nat),
    (Worker.outState (Worker.runCmd Worker.countIface c e h)).2 + e.framesExecuted
      = h + (Worker.outState (Worker.runCmd Worker.countIface c e h)).1.framesExecuted := by
  intro c e h
  cases c with
  | press b =>
    exact liftApi_count (Worker.press b e) e h (fun e1 h1 => press_framesExecuted b e e1 h1)
  | release b =>
    exact liftApi_count (Worker.release b e) e h (fun e1 h1 => release_framesExecuted b e e1 h1)
  | releaseAll => rfl
  | tap b =>
    simp only [Worker.runCmd]
    cases hpress : Worker.press b e with
    | error err => simp [hpress, Worker.liftApi, Worker.outState]
    | ok e1 =>
      have hf1 : e1.framesExecuted = e.framesExecuted := press_framesExecuted b e e1 hpress
      simp only [hpress, Worker.liftApi]
      have hc := requestStep_count e1 h
      cases hstep : Worker.requestStep Worker.countIface e1 h with
      | error x =>
        rw [hstep] at hc
        simp only [hstep, Worker.outState] at hc ⊢
        omega
      | ok p2 =>
        rw [hstep] at hc
        simp only [hstep, Worker.outState] at hc ⊢
        have hr := liftApi_count (Worker.release b p2.1) p2.1 p2.2
          (fun e2 h2 => release_framesExecuted b p2.1 e2 h2)
        simp only [Worker.outState, Worker.liftApi] at hr
        omega
  | hold b n =>
    simp only [Worker.runCmd]
    cases hpress : Worker.press b e with
    | error err => simp [hpress, Worker.liftApi, Worker.outState]
    | ok e1 =>
      have hf1 : e1.framesExecuted = e.framesExecuted := press_framesExecuted b e e1 hpress
      simp only [hpress, Worker.liftApi]
      have hc := stepLoop_count n e1 h
      cases hstep : Worker.stepLoop Worker.countIface n e1 h with
      | error x =>
        rw [hstep] at hc
        simp only [hstep, Worker.outState] at hc ⊢
        omega
      | ok p2 =>
        rw [hstep] at hc
        simp only [hstep, Worker.outState] at hc ⊢
        have hr := liftApi_count (Worker.release b p2.1) p2.1 p2.2
          (fun e2 h2 => release_framesExecuted b p2.1 e2 h2)
        simp only [Worker.outState, Worker.liftApi] at hr
        omega
  | step => exact requestStep_count e h
  | stepFrames n => exact stepLoop_count n e h
  | wait n => exact stepLoop_count n e h
  | getVariable name =>
    simp only [Worker.runCmd]
    cases hg : Worker.getVariable name e with
    | ok v => simp [hg, Worker.outState]
    | error err => simp [hg, Worker.outState]
  | getState => rfl
  | log msg => rfl
  | throwErr err => rfl

/-- Count invariant for whole scripts on the counting host. -/
theorem runScript_count : ∀ (cmds : List Worker.Cmd) (e : Worker.WorkerExec) (h : Nat),
    (Worker.outState (Worker.runScript Worker.countIface cmds e h)).2 + e.framesExecuted
      = h + (Worker.outState (Worker.runScript Worker.countIface cmds e h)).1.framesExecuted := by
  intro cmds
  induction cmds with
  | nil => intro e h; rfl
  | cons c cs ih =>
    intro e h
    have h1 := runCmd_count c e h
    simp only [Worker.runScript]
    cases hc : Worker.runCmd Worker.countIface c e h with
    | error x =>
      rw [hc] at h1
      simp only [hc, Worker.outState] at h1 ⊢
      omega
    | ok p =>
      rw [hc] at h1
      simp only [hc, Worker.outState] at h1 ⊢
      have h2 := ih p.1 p.2
      simp only [Worker.outState] at h2
      omega

/--
C2: game.frameNumber is 0 at the start of every execution regardless of the
host's absolute frame count; it increases by exactly 1 per completed step()
(one successful requestStep) and by exactly n per completed stepFrames(n),
with wait(n) identical to stepFrames(n); and against the counting host the
result's framesExecuted equals the total number of emulator frame advances
the run performed, i.e. the number of completed step requests.
-/
theorem sandbox_frameNumber_run_relative :
    (∀ (H : Type) (ifc : Worker.HostIface H) (maxFrames : Nat) (h : H),
      Worker.gameFrameNumber (Worker.startState ifc maxFrames h) = 0)
    ∧ (∀ (H : Type) (ifc : Worker.HostIface H) (e e' : Worker.WorkerExec) (h h' : H),
        Worker.requestStep ifc e h = Except.ok (e', h') →
        Worker.gameFrameNumber e' = Worker.gameFrameNumber e + 1)
    ∧ (∀ (H : Type) (ifc : Worker.HostIface H) (n : Nat) (e e' : Worker.WorkerExec) (h h' : H),
        Worker.stepLoop ifc n e h = Except.ok (e', h') →
        Worker.gameFrameNumber e' = Worker.gameFrameNumber e + n)
    ∧ (∀ (H : Type) (ifc : Worker.HostIface H) (n : Nat) (e : Worker.WorkerExec) (h : H),
        Worker.runCmd ifc (Worker.Cmd.wait n) e h = Worker.runCmd ifc (Worker.Cmd.stepFrames n) e h)
    ∧ (∀ (code : List Worker.Cmd) (maxFrames c0 : Nat),
        (Worker.executeCode Worker.countIface code maxFrames c0).2
          = c0 + (Worker.executeCode Worker.countIface code maxFrames c0).1.framesExecuted) := by
  refine ⟨?_, ?_, ?_, ?_, ?_⟩
  · intro H ifc maxFrames h
    rfl
  · intro H ifc e e' h h' hok
    exact (requestStep_ok_fields ifc e e' h h' hok).1
  · intro H ifc n e e' h h' hok
    exact (stepLoop_ok_fields ifc n e e' h h' hok).1
  · intro H ifc n e h
    rfl
  · intro code maxFrames c0
    have h1 := runScript_count code (Worker.startState Worker.countIface maxFrames c0) c0
    simp only [Worker.executeCode]
    cases hr : Worker.runScript Worker.countIface code
        (Worker.startState Worker.countIface maxFrames c0) c0 with
    | ok p =>
      rw [hr] at h1
      simp only [hr, Worker.outState, Worker.startState] at h1 ⊢
      omega
    | error x =>
      rw [hr] at h1
      simp only [hr, Worker.outState, Worker.startState] at h1 ⊢
      omega

/--
C2 witness: against the counting host with absolute frame count 7 and a
budget of 5, the fresh execution observes frameNumber 0, and one successful
requestStep takes the observed frameNumber from 0 to 1.
-/
theorem sandbox_frameNumber_run_relative_witness :
    Worker.gameFrameNumber (Worker.startState Worker.countIface 5 7) = 0
    ∧ Worker.gameFrameNumber
        { frameNumber := 8, framesExecuted := 1, maxFrames := 5, consoleOutput := [],
          currentState := [], heldButtons := [], inputQueue := [] }
      = Worker.gameFrameNumber
          { frameNumber := 7, framesExecuted := 0, maxFrames := 5, consoleOutput := [],
            currentState := [], heldButtons := [], inputQueue := [] } + 1 :=
  ⟨sandbox_frameNumber_run_relative.1 Nat Worker.countIface 5 7,
   sandbox_frameNumber_run_relative.2.1 Nat Worker.countIface
     { frameNumber := 7, framesExecuted := 0, maxFrames := 5, consoleOutput := [],
       currentState := [], heldButtons := [], inputQueue := [] }
     { frameNumber := 8, framesExecuted := 1, maxFrames := 5, consoleOutput := [],
       currentState := [], heldButtons := [], inputQueue := [] }
     7 8 rfl⟩

/--
C3: any attempt to advance a frame with run-relative framesExecuted already
at or past maxFrames fails with the budget-exceeded error, leaving the
execution and host untouched; the check is against run-relative frames, so
below the budget a step succeeds whatever the absolute frameNumber is; and
a script that does not catch the error ends the run as an ordinary script
error, completed = false with the budget message, having consumed exactly
the budget.
-/
theorem requestStep_budget_exceeded :
    (∀ (H : Type) (ifc : Worker.HostIface H) (e : Worker.WorkerExec) (h : H),
      e.framesExecuted ≥ e.maxFrames →
      Worker.requestStep ifc e h
        = Except.error ({ message := "Maximum frames exceeded", stack := none }, e, h))
    ∧ (∀ (H : Type) (ifc : Worker.HostIface H) (e : Worker.WorkerExec) (h : H),
        e.framesExecuted < e.maxFrames →
        ∃ e' h', Worker.requestStep ifc e h = Except.ok (e', h'))
    ∧ (∀ (H : Type) (ifc : Worker.HostIface H) (maxFrames : Nat) (h : H),
        (Worker.executeCode ifc [Worker.Cmd.stepFrames (maxFrames + 1)] maxFrames h).1
          = { completed := false, framesExecuted := maxFrames,
              error := some ("Maximum frames exceeded"), errorStack := none,
              consoleOutput := [] }) := by
  refine ⟨?_, ?_, ?_⟩
  · intro H ifc e h hge
    exact requestStep_err ifc e h hge
  · intro H ifc e h hlt
    exact requestStep_ok_exists ifc e h hlt
  · intro H ifc maxFrames h
    obtain ⟨e1, h1, herr, hfin, hcon⟩ :=
      stepLoop_budget ifc (maxFrames + 1) (Worker.startState ifc maxFrames h) h
        (by simp [Worker.startState]) (by simp [Worker.startState])
    simp only [Worker.startState] at hfin hcon
    have hrs : Worker.runScript ifc [Worker.Cmd.stepFrames (maxFrames + 1)]
        (Worker.startState ifc maxFrames h) h
        = Except.error ({ message := "Maximum frames exceeded", stack := none }, e1, h1) := by
      simp only [Worker.runScript, Worker.runCmd]
      rw [herr]
    simp only [Worker.executeCode, hrs]
    simp [Worker.jsErrorMessage, hfin, hcon]

/--
C3 witness: with budget 2 the uncaught budget error from stepFrames 3 ends
the run as completed = false with the budget message after exactly 2 frames,
and a concrete exhausted execution fails exactly with the budget error.
-/
theorem requestStep_budget_exceeded_witness :
    (Worker.executeCode Worker.countIface [Worker.Cmd.stepFrames 3] 2 10).1
      = { completed := false, framesExecuted := 2,
          error := some ("Maximum frames exceeded"), errorStack := none,
          consoleOutput := [] }
    ∧ Worker.requestStep Worker.countIface
        { frameNumber := 0, framesExecuted := 5, maxFrames := 5, consoleOutput := [],
          currentState := [], heldButtons := [], inputQueue := [] } 10
      = Except.error ({ message := "Maximum frames exceeded", stack := none },
          { frameNumber := 0, framesExecuted := 5, maxFrames := 5, consoleOutput := [],
            currentState := [], heldButtons := [], inputQueue := [] }, 10) :=
  ⟨requestStep_budget_exceeded.2.2 Nat Worker.countIface 2 10,
   requestStep_budget_exceeded.1 Nat Worker.countIface
     { frameNumber := 0, framesExecuted := 5, maxFrames := 5, consoleOutput := [],
       currentState := [], heldButtons := [], inputQueue := [] } 10 (by decide)⟩

/--
C4: a script exception never escapes executeCode as a live exception: for
every script and host, if the run throws then executeCode returns the
structured result carrying completed = false, the error message, the stack
where available, the frames executed at the throw and the captured console
output; if the script returns normally the result carries completed = true
with no error.
-/
theorem executeCode_captures_errors (H : Type) (ifc : Worker.HostIface H)
    (code : List Worker.Cmd) (maxFrames : Nat) (h : H) :
    (∀ err e' h',
      Worker.runScript ifc code (Worker.startState ifc maxFrames h) h
        = Except.error (err, e', h') →
      (Worker.executeCode ifc code maxFrames h).1
        = { completed := false, framesExecuted := e'.framesExecuted,
            error := some (Worker.jsErrorMessage err), errorStack := err.stack,
            consoleOutput := e'.consoleOutput })
    ∧ (∀ e' h',
      Worker.runScript ifc code (Worker.startState ifc maxFrames h) h = Except.ok (e', h') →
      (Worker.executeCode ifc code maxFrames h).1
        = { completed := true, framesExecuted := e'.framesExecuted, error := none,
            errorStack := none, consoleOutput := e'.consoleOutput }) := by
  constructor
  · intro err e' h' hrs
    simp only [Worker.executeCode, hrs]
  · intro e' h' hrs
    simp only [Worker.executeCode, hrs]

/--
C4 witness: a concrete script that logs one line and then throws an error
with message boom and a stack trace yields the structured failure result,
with the captured console output, and a concrete script that returns
normally yields completed = true.
-/
theorem executeCode_captures_errors_witness :
    (Worker.executeCode Worker.countIface
        [Worker.Cmd.log ("hi"),
         Worker.Cmd.throwErr { message := "boom", stack := some ("trace") }] 5 0).1
      = { completed := false, framesExecuted := 0, error := some ("boom"),
          errorStack := some ("trace"), consoleOutput := ["[log] hi"] }
    ∧ (Worker.executeCode Worker.countIface [Worker.Cmd.log ("hi")] 5 0).1
      = { completed := true, framesExecuted := 0, error := none,
          errorStack := none, consoleOutput := ["[log] hi"] } :=
  ⟨(executeCode_captures_errors Nat Worker.countIface
      [Worker.Cmd.log ("hi"),
       Worker.Cmd.throwErr { message := "boom", stack := some ("trace") }] 5 0).1
      { message := "boom", stack := some ("trace") }
      { frameNumber := 0, framesExecuted := 0, maxFrames := 5,
        consoleOutput := ["[log] hi"], currentState := [], heldButtons := [],
        inputQueue := [] } 0 rfl,
   (executeCode_captures_errors Nat Worker.countIface [Worker.Cmd.log ("hi")] 5 0).2
      { frameNumber := 0, framesExecuted := 0, maxFrames := 5,
        consoleOutput := ["[log] hi"], currentState := [], heldButtons := [],
        inputQueue := [] } 0 rfl⟩
